import Mathlib

/-!
Verification of the custom raster render and composite export pipeline of the
esri-imagery-explorer-apps repository.

The development shallowly embeds the TypeScript sources:

* `Json` models JSON-compatible JavaScript values; an object is an ordered
  association list of key/value pairs (JavaScript string-keyed objects preserve
  insertion order, which is the order `Object.keys` and `JSON.stringify` use).
* `ExportImage.createOrderedRenderingRuleString` embeds the serializer copy in
  `src/shared/services/helpers/exportImage.ts` (the copy in
  `CustomRendererImageOverlay.tsx` is character-for-character identical to it).
* `UseImageLayer.createOrderedRenderingRuleString` embeds the copy in
  `src/shared/components/ImageryLayer/useImageLayer.tsx`, which differs in the
  string branch (no escaping).
* `normalizeRasterFunctionOrder` embeds the normalizer found in the unnamed
  source file that also holds `useImageryLayerByObjectId`.
* `jsonStringify` embeds the standard `JSON.stringify` encoder applied to a
  `Json` value (insertion order, full string escaping).
* The stateful fetch / overlay-swap / screenshot-capture code is embedded as
  explicit state-passing step functions over small state records.
-/

/-- A JSON-compatible JavaScript value.  Objects are ordered association lists
(JavaScript insertion order). -/
inductive Json where
  | str : String → Json
  | num : Int → Json
  | bool : Bool → Json
  | null : Json
  | arr : List Json → Json
  | obj : List (String × Json) → Json

/-- Property access `o[key]` on an object's field list: the first binding wins,
`none` models `undefined` (the code guards with `!== undefined`). -/
def lookupField : List (String × Json) → String → Option Json
  | [], _ => none
  | (k, v) :: rest, key => if k = key then some v else lookupField rest key

/-- JavaScript `typeof v === 'object'`: true for objects, arrays and `null`. -/
def isObjectType : Json → Bool
  | .obj _ => true
  | .arr _ => true
  | .null => true
  | _ => false

/-- Whether a value is an array (`Array.isArray`). -/
def isArrayVal : Json → Bool
  | .arr _ => true
  | _ => false

mutual

/-- JavaScript string coercion `String(v)`, as performed by template
interpolation: strings pass through verbatim, numbers and booleans print,
`null` prints as "null", arrays join their coerced elements with commas, and a
plain object prints as "[object Object]". -/
def jsToString : Json → String
  | .str s => s
  | .num n => toString n
  | .bool b => if b then "true" else "false"
  | .null => "null"
  | .arr xs => jsArrayToString xs
  | .obj _ => "[object Object]"
termination_by structural j => j

/-- `Array.prototype.toString` (a comma join in which `null` elements become
the empty string). -/
def jsArrayToString : List Json → String
  | [] => ""
  | [.null] => ""
  | [x] => jsToString x
  | .null :: xs => "" ++ "," ++ jsArrayToString xs
  | x :: xs => jsToString x ++ "," ++ jsArrayToString xs
termination_by structural l => l

end

/-- One character of the escaping performed by
`value.replace(/\\/g, '\\\\').replace(/"/g, '\\"')` in the serializer copies
that escape: the first replace doubles every backslash and introduces no
quote, the second one then escapes every quote, so the chain acts
character-wise. -/
def jsEscapeChar (c : Char) : String :=
  if c = '\\' then "\\\\"
  else if c = '"' then "\\\""
  else String.singleton c

/-- The escaping chain applied to a whole string. -/
def jsEscape (s : String) : String :=
  String.join (s.data.map jsEscapeChar)

/-- Lower-case hexadecimal digit. -/
def hexDigit (n : Nat) : Char :=
  if n < 10 then Char.ofNat (48 + n) else Char.ofNat (87 + n)

/-- Escaping of one character under standard JSON string encoding
(`JSON.stringify`). -/
def jsonEscapeChar (c : Char) : String :=
  if c = '"' then "\\\""
  else if c = '\\' then "\\\\"
  else if c = '\n' then "\\n"
  else if c = '\t' then "\\t"
  else if c = '\r' then "\\r"
  else if c = '\x08' then "\\b"
  else if c = '\x0c' then "\\f"
  else if c.toNat < 32 then
    "\\u00" ++ String.mk [hexDigit (c.toNat / 16), hexDigit (c.toNat % 16)]
  else String.singleton c

/-- `JSON.stringify` applied to a string scalar. -/
def jsonStringifyString (s : String) : String :=
  "\"" ++ String.join (s.data.map jsonEscapeChar) ++ "\""

/-- `JSON.stringify` applied to a non-object value (the serializer reaches this
through its scalar branches). -/
def jsonStringifyScalar : Json → String
  | .str s => jsonStringifyString s
  | .num n => toString n
  | .bool b => if b then "true" else "false"
  | .null => "null"
  | .arr _ => ""
  | .obj _ => ""

/-- JavaScript `parts.join(sep)`. -/
def joinSep (sep : String) : List String → String
  | [] => ""
  | [x] => x
  | x :: xs => x ++ sep ++ joinSep sep xs

namespace ExportImage

mutual

/-- The hand-written ordered serializer of `exportImage.ts` (the copy inside
`CustomRendererImageOverlay.tsx` is identical).  Scalars (and `null`, caught by
the `!obj` test) go through `JSON.stringify`; arrays map the serializer over
their elements; objects emit `"rasterFunction":"${value}"` first when the key
is present and then every remaining key, recursing into object-typed values,
escaping backslash and quote in string values, and `JSON.stringify`-ing the
rest. -/
def createOrderedRenderingRuleString : Json → String
  | .null => "null"
  | .str s => jsonStringifyString s
  | .num n => toString n
  | .bool b => if b then "true" else "false"
  | .arr xs => "[" ++ joinSep "," (corsList xs) ++ "]"
  | .obj fs =>
      let rfParts : List String :=
        match lookupField fs "rasterFunction" with
        | some v => ["\"rasterFunction\":\"" ++ jsToString v ++ "\""]
        | none => []
      "\x7b" ++ joinSep "," (rfParts ++ corsFields fs) ++ "\x7d"
termination_by structural j => j

/-- Element-wise serialization of an array (`obj.map(item => ...)`). -/
def corsList : List Json → List String
  | [] => []
  | x :: xs => createOrderedRenderingRuleString x :: corsList xs
termination_by structural l => l

/-- The `Object.keys(obj).forEach` loop: every key other than `rasterFunction`
contributes one part, by recursion for object-typed values, by the
backslash-and-quote escape for strings, and by `JSON.stringify` otherwise. -/
def corsFields : List (String × Json) → List String
  | [] => []
  | (k, v) :: fs =>
      if k = "rasterFunction" then corsFields fs
      else
        (if isObjectType v then
          ("\"" ++ k ++ "\":") ++ createOrderedRenderingRuleString v
         else match v with
          | .str s => ("\"" ++ k ++ "\":\"") ++ jsEscape s ++ "\""
          | w => ("\"" ++ k ++ "\":") ++ jsonStringifyScalar w) :: corsFields fs
termination_by structural l => l

end

end ExportImage

namespace UseImageLayer

mutual

/-- The serializer copy inside `useImageLayer.tsx`.  It is identical to the
`exportImage.ts` copy except in its string branch, which interpolates the
string value verbatim (`"${key}":"${value}"`) without any escaping. -/
def createOrderedRenderingRuleString : Json → String
  | .null => "null"
  | .str s => jsonStringifyString s
  | .num n => toString n
  | .bool b => if b then "true" else "false"
  | .arr xs => "[" ++ joinSep "," (corsList xs) ++ "]"
  | .obj fs =>
      let rfParts : List String :=
        match lookupField fs "rasterFunction" with
        | some v => ["\"rasterFunction\":\"" ++ jsToString v ++ "\""]
        | none => []
      "\x7b" ++ joinSep "," (rfParts ++ corsFields fs) ++ "\x7d"
termination_by structural j => j

/-- Element-wise serialization of an array. -/
def corsList : List Json → List String
  | [] => []
  | x :: xs => createOrderedRenderingRuleString x :: corsList xs
termination_by structural l => l

/-- The key loop of the `useImageLayer.tsx` copy: note the unescaped string
branch. -/
def corsFields : List (String × Json) → List String
  | [] => []
  | (k, v) :: fs =>
      if k = "rasterFunction" then corsFields fs
      else
        (if isObjectType v then
          ("\"" ++ k ++ "\":") ++ createOrderedRenderingRuleString v
         else match v with
          | .str s => ("\"" ++ k ++ "\":\"") ++ s ++ "\""
          | w => ("\"" ++ k ++ "\":") ++ jsonStringifyScalar w) :: corsFields fs
termination_by structural l => l

end

end UseImageLayer

mutual

/-- The platform JSON encoder (`JSON.stringify`) on a `Json` value: keys are
emitted in insertion order with full JSON string escaping, recursing into
every value. -/
def jsonStringify : Json → String
  | .str s => jsonStringifyString s
  | .num n => toString n
  | .bool b => if b then "true" else "false"
  | .null => "null"
  | .arr xs => "[" ++ joinSep "," (jsonStringifyList xs) ++ "]"
  | .obj fs => "\x7b" ++ joinSep "," (jsonStringifyFields fs) ++ "\x7d"
termination_by structural j => j

/-- `JSON.stringify` of the elements of an array. -/
def jsonStringifyList : List Json → List String
  | [] => []
  | x :: xs => jsonStringify x :: jsonStringifyList xs
termination_by structural l => l

/-- `JSON.stringify` of the fields of an object, in insertion order. -/
def jsonStringifyFields : List (String × Json) → List String
  | [] => []
  | (k, v) :: fs =>
      (jsonStringifyString k ++ ":" ++ jsonStringify v) :: jsonStringifyFields fs
termination_by structural l => l

end

mutual

/-- The graph normalizer `normalizeRasterFunctionOrder` of the unnamed source
file holding the imagery-layer hook: scalars, `null` and (top-level) arrays
are returned unchanged; an object is rebuilt with its `rasterFunction` binding
(copied as is, without recursing into it) first, followed by the remaining
keys, recursing into plain-object values and mapping the normalizer over array
values. -/
def normalizeRasterFunctionOrder : Json → Json
  | .obj fs =>
      let rfField : List (String × Json) :=
        match lookupField fs "rasterFunction" with
        | some v => [("rasterFunction", v)]
        | none => []
      .obj (rfField ++ normFields fs)
  | v => v
termination_by structural j => j

/-- The `for key in obj` loop of the normalizer, skipping `rasterFunction`:
plain-object values are normalized recursively, array values are mapped
element-wise, everything else is copied. -/
def normFields : List (String × Json) → List (String × Json)
  | [] => []
  | (k, v) :: fs =>
      if k = "rasterFunction" then normFields fs
      else
        (match v with
         | .obj gs => (k, normalizeRasterFunctionOrder (.obj gs))
         | .arr xs => (k, .arr (normList xs))
         | w => (k, w)) :: normFields fs
termination_by structural l => l

/-- `obj[key].map(item => normalizeRasterFunctionOrder(item))`. -/
def normList : List Json → List Json
  | [] => []
  | x :: xs => normalizeRasterFunctionOrder x :: normList xs
termination_by structural l => l

end

mutual

/-- The values on which the hand-written serializer recursively invokes
itself while serializing a value: the value itself, every array element, and
every object-typed value of a key other than `rasterFunction` (the value of a
`rasterFunction` key is interpolated, never serialized recursively).  Both
serializer copies share this recursion structure. -/
def serNodes : Json → List Json
  | .arr xs => .arr xs :: serNodesList xs
  | .obj fs => .obj fs :: serNodesFields fs
  | v => [v]
termination_by structural j => j

/-- Recursively serialized values inside an array. -/
def serNodesList : List Json → List Json
  | [] => []
  | x :: xs => serNodes x ++ serNodesList xs
termination_by structural l => l

/-- Recursively serialized values among an object's fields. -/
def serNodesFields : List (String × Json) → List Json
  | [] => []
  | (k, v) :: fs =>
      if k = "rasterFunction" then serNodesFields fs
      else (if isObjectType v then serNodes v else []) ++ serNodesFields fs
termination_by structural l => l

end

mutual

/-- The values `JSON.stringify` recursively encodes while encoding a value:
the value itself, every array element and every field value. -/
def stringifyNodes : Json → List Json
  | .arr xs => .arr xs :: stringifyNodesList xs
  | .obj fs => .obj fs :: stringifyNodesFields fs
  | v => [v]
termination_by structural j => j

/-- Recursively encoded values inside an array. -/
def stringifyNodesList : List Json → List Json
  | [] => []
  | x :: xs => stringifyNodes x ++ stringifyNodesList xs
termination_by structural l => l

/-- Recursively encoded values among an object's fields. -/
def stringifyNodesFields : List (String × Json) → List Json
  | [] => []
  | (_, v) :: fs => stringifyNodes v ++ stringifyNodesFields fs
termination_by structural l => l

end


/-- The rasterFunction-first property of one emitted object literal: if the
value is an object whose field list binds the key `rasterFunction`, its
encoding under `enc` is an object literal whose first emitted key is
`rasterFunction` (every sibling key therefore comes later). -/
def RfEmittedFirst (enc : Json → String) (v : Json) : Prop :=
  ∀ gs : List (String × Json), v = Json.obj gs →
    (lookupField gs "rasterFunction").isSome = true →
    ∃ rest, enc v = "\x7b\"rasterFunction\":" ++ rest

mutual

/-- Inputs on which the normalize-then-stringify strategy can keep the
ordering contract: every `rasterFunction` value is a scalar (the normalizer
copies that value without recursing into it, and the hand-written serializer
interpolates it), and no array occurs as an element of another array (the
normalizer returns an array passed to it directly — as such an element is —
unchanged). -/
def goodJson : Json → Bool
  | .obj fs =>
      (match lookupField fs "rasterFunction" with
       | some v => !isObjectType v
       | none => true) && goodFields fs
  | .arr xs => goodElems xs
  | _ => true
termination_by structural j => j

/-- Goodness of an object's field values. -/
def goodFields : List (String × Json) → Bool
  | [] => true
  | (_, v) :: fs => goodJson v && goodFields fs
termination_by structural l => l

/-- Goodness of array elements: no element is itself an array. -/
def goodElems : List Json → Bool
  | [] => true
  | x :: xs => !isArrayVal x && goodJson x && goodElems xs
termination_by structural l => l

end

/-- Composite aggregation method (`'first' | 'last' | 'min' | 'max' | 'mean'
| 'blend' | 'sum'`). -/
inductive CompositeMethod where
  | first
  | last
  | min
  | max
  | mean
  | blend
  | sum
deriving DecidableEq

/-- The fields of the `MosaicRule` instances the code constructs (the `where`
clause is called `whereClause` because `where` is reserved in Lean). -/
structure MosaicRuleJS where
  method : String
  ascending : Bool
  lockRasterIds : List Int
  operation : Option CompositeMethod
  whereClause : String
deriving DecidableEq

/-- `getLockRasterMosaicRule` of `useImageLayer.tsx`: `null` for a missing or
falsy (zero) object id, otherwise a lock-raster rule restricted to that
single id, with no `operation` field. -/
def getLockRasterMosaicRule : Option Int → Option MosaicRuleJS
  | none => none
  | some objectId =>
      if objectId = 0 then none
      else
        some
          { method := "lock-raster"
            ascending := false
            lockRasterIds := [objectId]
            operation := none
            whereClause := "objectid in (" ++ toString objectId ++ ")" }

/-- The `compositeMosaicRule` memo of `CompositeLayer.tsx`: `null` when the
scene-id list is missing or empty, otherwise a lock-raster rule over the full
id list tagged with the composite method as its `operation` — there is no
arity check beyond non-emptiness. -/
def compositeMosaicRule :
    Option (List Int) → CompositeMethod → Option MosaicRuleJS
  | none, _ => none
  | some ids, m =>
      if ids.length = 0 then none
      else
        some
          { method := "lock-raster"
            ascending := false
            lockRasterIds := ids
            operation := some m
            whereClause :=
              "objectid in (" ++ joinSep "," (ids.map toString) ++ ")" }

/-- `isDisabled` of `GenerateCompositeButton`: the generate-composite action
is refused when fewer than two scene ids are selected. -/
def generateCompositeIsDisabled : Option (List Int) → Bool
  | none => true
  | some ids => ids.length < 2

namespace CustomRendererImageOverlay

/-- Outcome of the awaited `fetch` + `response.blob()` pair inside
`fetchImage`.  `success` carries whether the delivered payload is actually a
decodable image; the code never inspects that flag because this component has
no decode step.  `httpError` models `!response.ok` (the code throws there),
`abortError` the rejection produced by an honoured abort signal. -/
inductive FetchOutcome where
  | success (decodable : Bool)
  | httpError (status : Nat)
  | transportError
  | abortError
deriving DecidableEq

/-- State touched by `fetchImage`: the current `AbortController` (identified
by the id of the job that installed it), the set of controllers whose
`abort()` has been called, the `layerRef` slot, the layer ids attached to the
map, and the last value sent to `onLoadingChange`. -/
structure OverlayState where
  abortController : Option Nat
  abortedControllers : List Nat
  layerRef : Option Nat
  mapLayers : List Nat
  loading : Option Bool
deriving DecidableEq

/-- The head of `fetchImage` for job `j`: abort the previous request if any,
install a fresh controller, and (once the extent guards pass) report
`onLoadingChange(true)`. -/
def fetchImageStart (j : Nat) (s : OverlayState) : OverlayState :=
  { s with
    abortController := some j
    abortedControllers :=
      match s.abortController with
      | some c => c :: s.abortedControllers
      | none => s.abortedControllers
    loading := some true }

/-- First half of the commit on fetch success:
`mapView.map.remove(layerRef.current)` when a previous overlay exists. -/
def removeOldLayer (s : OverlayState) : OverlayState :=
  match s.layerRef with
  | some old => { s with mapLayers := s.mapLayers.erase old }
  | none => s

/-- Second half of the commit: create the new `MediaLayer` for job `j`'s
image, store it in `layerRef` and `mapView.map.add` it. -/
def addNewLayer (j : Nat) (s : OverlayState) : OverlayState :=
  { s with layerRef := some j, mapLayers := s.mapLayers ++ [j] }

/-- Resolution of job `j`'s awaited request.  On success the commit runs
unconditionally — the abort token is never consulted again — with the removal
of the old overlay preceding the insertion of the new one.  Every failure
(thrown non-ok status, transport error, abort) lands in the catch block,
which only reports the error and resets the loading flag. -/
def fetchImageResolve (j : Nat) (o : FetchOutcome) (s : OverlayState) :
    OverlayState :=
  match o with
  | .success _ => { addNewLayer j (removeOldLayer s) with loading := some false }
  | _ => { s with loading := some false }

end CustomRendererImageOverlay

namespace CompositeLayer

/-- Outcome of `exportCompositeImageWithCustomRenderer` as awaited by
`createCustomRendererLayer`.  `ok` records `response.ok` (whether the HTTP
status was 2xx) and `decodable` whether the returned blob is a loadable
image (the `new Image()` round trip resolves or rejects on it).  The helper
never reads `response.ok` — any delivered response, success or error status,
yields a blob — so the code ignores the `ok` flag entirely. -/
inductive CompFetchOutcome where
  | delivered (ok : Bool) (decodable : Bool)
  | transportError
  | abortError
deriving DecidableEq

/-- State touched by `createCustomRendererLayer`: abort bookkeeping as in the
overlay component, the `layerRef` slot, the layers attached to the group
layer, and the object URLs pushed into `blobUrlsRef`. -/
structure CompositeState where
  abortController : Option Nat
  abortedControllers : List Nat
  layerRef : Option Nat
  groupLayers : List Nat
  blobUrls : List Nat
deriving DecidableEq

/-- The head of `createCustomRendererLayer` for job `j`: abort the previous
request if any and install a fresh controller. -/
def createCustomRendererLayerStart (j : Nat) (s : CompositeState) :
    CompositeState :=
  { s with
    abortController := some j
    abortedControllers :=
      match s.abortController with
      | some c => c :: s.abortedControllers
      | none => s.abortedControllers }

/-- Resolution of job `j`'s export request.  On a delivered blob — the HTTP
status is never inspected, so a non-2xx response arrives here exactly like a
2xx one — the object URL is created and pushed first; the image is then
decoded (`img.onload` / `img.onerror`) *before* any layer is touched: a
decodable payload removes the previous layer from the group and installs the
new `MediaLayer` (`setLayer` hands it to the add-to-group effect), whatever
the status was.  A decode failure rejects into the catch block, which only
logs — the layer slot and group are left as they were.  Transport errors and
aborts change nothing. -/
def createCustomRendererLayerResolve (j : Nat) (o : CompFetchOutcome)
    (s : CompositeState) : CompositeState :=
  match o with
  | .delivered _ decodable =>
      let s0 := { s with blobUrls := s.blobUrls ++ [j] }
      if decodable then
        let s1 :=
          match s0.layerRef with
          | some old => { s0 with groupLayers := s0.groupLayers.erase old }
          | none => s0
        { s1 with layerRef := some j, groupLayers := s1.groupLayers ++ [j] }
      else s0
  | _ => s

end CompositeLayer

namespace ScreenshotCapture

/-- The stages of a capture attempt at which an await can reject: waiting for
the layer (`layer.when()`), waiting for the view (`mapView.when()`), the
settle delay, `captureMapScreenshot`, and the firestore write
(`updateRendererImage`). -/
inductive CaptureStage where
  | layerWhen
  | mapViewWhen
  | settleDelay
  | screenshot
  | firestoreUpdate
deriving DecidableEq

/-- A custom renderer as held by the renderer registry. -/
structure RendererData where
  id : String
  image : Option String
deriving DecidableEq

/-- State touched by the capture coordinators: the process-wide
`pendingScreenshotRendererId` flag, the renderer registry, and the persisted
firestore images keyed by renderer id. -/
structure CoordState where
  pendingScreenshotRendererId : Option String
  customRenderers : List RendererData
  firestoreImages : List (String × String)
deriving DecidableEq

/-- The `customRendererImageUpdated` reducer: set the image of the first
registry entry with the given renderer id. -/
def customRendererImageUpdated (rid img : String) :
    List RendererData → List RendererData
  | [] => []
  | r :: rest =>
      if r.id = rid then { r with image := some img } :: rest
      else r :: customRendererImageUpdated rid img rest

/-- The firestore helper `updateRendererImage`: a merge write of the image
into the renderer document keyed by the renderer id. -/
def updateRendererImage (rid img : String) (l : List (String × String)) :
    List (String × String) :=
  (rid, img) :: l.filter (fun p => p.1 ≠ rid)

/-- `handleLayerUpdate` (`CompositeLayer.tsx`; the regular-renderer path of
`ImageryLayerByObjectID` holds an identical copy): under the guard that a
pending id exists (together with layer, view and user), it awaits layer and
view readiness, the one-second settle delay, the screenshot, the firestore
write and the registry update, then clears the pending id; its catch clause
also clears the pending id, so every terminal outcome clears the flag.
`failAt` names the first stage whose await rejects (`none` for a fault-free
run) and `img` is the captured screenshot. -/
def handleLayerUpdate (failAt : Option CaptureStage) (img : String)
    (s : CoordState) : CoordState :=
  match s.pendingScreenshotRendererId with
  | none => s
  | some rid =>
      match failAt with
      | none =>
          { s with
            firestoreImages := updateRendererImage rid img s.firestoreImages
            customRenderers := customRendererImageUpdated rid img s.customRenderers
            pendingScreenshotRendererId := none }
      | some _ => { s with pendingScreenshotRendererId := none }

/-- `handleCaptureScreenshot` (the capture callback of the custom-overlay
path inside the second `ImageryLayerByObjectID` copy): the same
screenshot → firestore write → registry update → clear-pending sequence, but
with no try/catch, so a rejection at the screenshot or storage stage
propagates out and none of the later steps — the clearing included — run.
Only the `screenshot` and `firestoreUpdate` stages occur in this callback. -/
def handleCaptureScreenshot (failAt : Option CaptureStage) (img : String)
    (s : CoordState) : CoordState :=
  match s.pendingScreenshotRendererId with
  | none => s
  | some rid =>
      match failAt with
      | none =>
          { s with
            firestoreImages := updateRendererImage rid img s.firestoreImages
            customRenderers := customRendererImageUpdated rid img s.customRenderers
            pendingScreenshotRendererId := none }
      | some _ => s

end ScreenshotCapture

/-- Boolean string-prefix test on the character lists of two strings. -/
def strStartsWith (p s : String) : Bool :=
  p.data.isPrefixOf s.data

theorem isPrefixOf_self_append (l t : List Char) : l.isPrefixOf (l ++ t) = true := by
  induction l with
  | nil => simp [List.isPrefixOf]
  | cons a as ih => simp [List.isPrefixOf, ih]

theorem strStartsWith_append (p t : String) : strStartsWith p (p ++ t) = true := by
  simp [strStartsWith, String.data_append, isPrefixOf_self_append]

theorem strStartsWith_of_eq_append {p s t : String} (h : s = p ++ t) :
    strStartsWith p s = true := by
  subst h; exact strStartsWith_append p t

theorem append_empty_str (a : String) : a ++ "" = a := by
  apply String.ext
  simp [String.data_append]

/-- `parts.join(sep)` with a nonempty list starts with the first part. -/
theorem joinSep_cons_exists (sep a : String) (l : List String) :
    ∃ t, joinSep sep (a :: l) = a ++ t := by
  cases l with
  | nil => exact ⟨"", (append_empty_str a).symm⟩
  | cons b bs => exact ⟨sep ++ joinSep sep (b :: bs), by simp [joinSep, String.append_assoc]⟩

theorem ExportImage.cors_obj_rf (fs : List (String × Json)) (v : Json)
    (h : lookupField fs "rasterFunction" = some v) :
    ∃ rest, ExportImage.createOrderedRenderingRuleString (Json.obj fs) =
      "\x7b\"rasterFunction\":" ++ rest := by
  obtain ⟨t, ht⟩ := joinSep_cons_exists ","
    ("\"rasterFunction\":\"" ++ jsToString v ++ "\"") (ExportImage.corsFields fs)
  refine ⟨"\"" ++ (jsToString v ++ ("\"" ++ (t ++ "\x7d"))), ?_⟩
  have e : ExportImage.createOrderedRenderingRuleString (Json.obj fs) =
      "\x7b" ++ joinSep ","
        (("\"rasterFunction\":\"" ++ jsToString v ++ "\"") ::
          ExportImage.corsFields fs) ++ "\x7d" := by
    simp [ExportImage.createOrderedRenderingRuleString, h]
  rw [e, ht]
  simp only [String.append_assoc]
  rw [← String.append_assoc, ← String.append_assoc]
  rfl

theorem UseImageLayer.cors_obj_rf_uil (fs : List (String × Json)) (v : Json)
    (h : lookupField fs "rasterFunction" = some v) :
    ∃ rest, UseImageLayer.createOrderedRenderingRuleString (Json.obj fs) =
      "\x7b\"rasterFunction\":" ++ rest := by
  obtain ⟨t, ht⟩ := joinSep_cons_exists ","
    ("\"rasterFunction\":\"" ++ jsToString v ++ "\"") (UseImageLayer.corsFields fs)
  refine ⟨"\"" ++ (jsToString v ++ ("\"" ++ (t ++ "\x7d"))), ?_⟩
  have e : UseImageLayer.createOrderedRenderingRuleString (Json.obj fs) =
      "\x7b" ++ joinSep ","
        (("\"rasterFunction\":\"" ++ jsToString v ++ "\"") ::
          UseImageLayer.corsFields fs) ++ "\x7d" := by
    simp [UseImageLayer.createOrderedRenderingRuleString, h]
  rw [e, ht]
  simp only [String.append_assoc]
  rw [← String.append_assoc, ← String.append_assoc]
  rfl

theorem jsonStringify_rf_head (v : Json) (gs : List (String × Json)) :
    ∃ rest, jsonStringify (Json.obj (("rasterFunction", v) :: gs)) =
      "\x7b\"rasterFunction\":" ++ rest := by
  obtain ⟨t, ht⟩ := joinSep_cons_exists ","
    (jsonStringifyString "rasterFunction" ++ ":" ++ jsonStringify v)
    (jsonStringifyFields gs)
  refine ⟨jsonStringify v ++ (t ++ "\x7d"), ?_⟩
  have e : jsonStringify (Json.obj (("rasterFunction", v) :: gs)) =
      "\x7b" ++ joinSep ","
        ((jsonStringifyString "rasterFunction" ++ ":" ++ jsonStringify v) ::
          jsonStringifyFields gs) ++ "\x7d" := by
    simp [jsonStringify, jsonStringifyFields]
  rw [e, ht]
  have hlit : jsonStringifyString "rasterFunction" = "\"rasterFunction\"" := rfl
  rw [hlit]
  simp only [String.append_assoc]
  rw [← String.append_assoc, ← String.append_assoc]
  rfl

theorem str_infix_joinSep_of_mem (sep : String) {s : String} :
    ∀ {l : List String}, s ∈ l → s.data <:+: (joinSep sep l).data := by
  intro l h
  induction l with
  | nil => cases h
  | cons a l ih =>
    cases h with
    | head =>
      cases l with
      | nil => exact List.infix_refl _
      | cons b bs =>
        refine ⟨[], sep.data ++ (joinSep sep (b :: bs)).data, ?_⟩
        simp [joinSep, String.data_append]
    | tail _ hmem =>
      cases l with
      | nil => cases hmem
      | cons b bs =>
        refine List.IsInfix.trans (ih hmem) ⟨a.data ++ sep.data, [], ?_⟩
        simp [joinSep, String.data_append]

theorem ExportImage.mem_corsList {x : Json} :
    ∀ {xs : List Json}, x ∈ xs →
      ExportImage.createOrderedRenderingRuleString x ∈ ExportImage.corsList xs := by
  intro xs h
  induction xs with
  | nil => cases h
  | cons a l ih =>
    rw [ExportImage.corsList]
    cases h with
    | head => exact List.mem_cons_self _ _
    | tail _ hmem => exact List.mem_cons_of_mem _ (ih hmem)

theorem ExportImage.corsFields_cons (k : String) (v : Json)
    (fs : List (String × Json)) :
    ExportImage.corsFields ((k, v) :: fs) =
      if k = "rasterFunction" then ExportImage.corsFields fs
      else
        (if isObjectType v then
          ("\"" ++ k ++ "\":") ++ ExportImage.createOrderedRenderingRuleString v
         else match v with
          | .str s => ("\"" ++ k ++ "\":\"") ++ jsEscape s ++ "\""
          | w => ("\"" ++ k ++ "\":") ++ jsonStringifyScalar w) ::
          ExportImage.corsFields fs := rfl

theorem ExportImage.mem_corsFields {k : String} {v : Json} :
    ∀ {fs : List (String × Json)}, (k, v) ∈ fs → k ≠ "rasterFunction" →
      isObjectType v = true →
      (("\"" ++ k ++ "\":") ++ ExportImage.createOrderedRenderingRuleString v) ∈
        ExportImage.corsFields fs := by
  intro fs h hk ho
  induction fs with
  | nil => cases h
  | cons p fs ih =>
    obtain ⟨k', v'⟩ := p
    rw [ExportImage.corsFields_cons]
    by_cases hk' : k' = "rasterFunction"
    · rw [if_pos hk']
      rcases List.mem_cons.mp h with heq | hmem
      · injection heq with h1 h2
        exact absurd (h1.trans hk') hk
      · exact ih hmem
    · rw [if_neg hk']
      rcases List.mem_cons.mp h with heq | hmem
      · injection heq with h1 h2
        subst h1
        subst h2
        rw [if_pos ho]
        exact List.mem_cons_self _ _
      · exact List.mem_cons_of_mem _ (ih hmem)

mutual

theorem serNodes_data_infix : ∀ (j v : Json), v ∈ serNodes j →
    (ExportImage.createOrderedRenderingRuleString v).data <:+:
      (ExportImage.createOrderedRenderingRuleString j).data
  | .str s, v, h => by
    have hs : serNodes (Json.str s) = [Json.str s] := rfl
    rw [hs] at h
    obtain rfl := List.mem_singleton.mp h
    exact List.infix_refl _
  | .num n, v, h => by
    have hs : serNodes (Json.num n) = [Json.num n] := rfl
    rw [hs] at h
    obtain rfl := List.mem_singleton.mp h
    exact List.infix_refl _
  | .bool b, v, h => by
    have hs : serNodes (Json.bool b) = [Json.bool b] := rfl
    rw [hs] at h
    obtain rfl := List.mem_singleton.mp h
    exact List.infix_refl _
  | .null, v, h => by
    have hs : serNodes Json.null = [Json.null] := rfl
    rw [hs] at h
    obtain rfl := List.mem_singleton.mp h
    exact List.infix_refl _
  | .arr xs, v, h => by
    have hs : serNodes (Json.arr xs) = Json.arr xs :: serNodesList xs := rfl
    rw [hs] at h
    rcases List.mem_cons.mp h with rfl | hmem
    · exact List.infix_refl _
    · obtain ⟨x, hx, hinf⟩ := serNodesList_data_infix xs v hmem
      have h2 : (ExportImage.createOrderedRenderingRuleString x).data <:+:
          (joinSep "," (ExportImage.corsList xs)).data :=
        str_infix_joinSep_of_mem "," (ExportImage.mem_corsList hx)
      have h3 : (joinSep "," (ExportImage.corsList xs)).data <:+:
          (ExportImage.createOrderedRenderingRuleString (Json.arr xs)).data := by
        refine ⟨"[".data, "]".data, ?_⟩
        have e : ExportImage.createOrderedRenderingRuleString (Json.arr xs) =
            "[" ++ joinSep "," (ExportImage.corsList xs) ++ "]" := rfl
        rw [e]
        simp [String.data_append]
      exact hinf.trans (h2.trans h3)
  | .obj fs, v, h => by
    have hs : serNodes (Json.obj fs) = Json.obj fs :: serNodesFields fs := rfl
    rw [hs] at h
    rcases List.mem_cons.mp h with rfl | hmem
    · exact List.infix_refl _
    · obtain ⟨k, w, hkw, hk, ho, hinf⟩ := serNodesFields_data_infix fs v hmem
      have hpart := ExportImage.mem_corsFields hkw hk ho
      have h1 : (ExportImage.createOrderedRenderingRuleString w).data <:+:
          (("\"" ++ k ++ "\":") ++
            ExportImage.createOrderedRenderingRuleString w).data :=
        ⟨("\"" ++ k ++ "\":").data, [], by simp [String.data_append]⟩
      cases hrf : lookupField fs "rasterFunction" with
      | some u =>
        have e : ExportImage.createOrderedRenderingRuleString (Json.obj fs) =
            "\x7b" ++ joinSep ","
              (("\"rasterFunction\":\"" ++ jsToString u ++ "\"") ::
                ExportImage.corsFields fs) ++ "\x7d" := by
          simp [ExportImage.createOrderedRenderingRuleString, hrf]
        have h2 := str_infix_joinSep_of_mem ","
          (List.mem_cons_of_mem ("\"rasterFunction\":\"" ++ jsToString u ++ "\"")
            hpart)
        have h3 : (joinSep ","
            (("\"rasterFunction\":\"" ++ jsToString u ++ "\"") ::
              ExportImage.corsFields fs)).data <:+:
            (ExportImage.createOrderedRenderingRuleString (Json.obj fs)).data := by
          refine ⟨"\x7b".data, "\x7d".data, ?_⟩
          rw [e]
          simp [String.data_append]
        exact hinf.trans (h1.trans (h2.trans h3))
      | none =>
        have e : ExportImage.createOrderedRenderingRuleString (Json.obj fs) =
            "\x7b" ++ joinSep "," (ExportImage.corsFields fs) ++ "\x7d" := by
          simp [ExportImage.createOrderedRenderingRuleString, hrf]
        have h2 := str_infix_joinSep_of_mem "," hpart
        have h3 : (joinSep "," (ExportImage.corsFields fs)).data <:+:
            (ExportImage.createOrderedRenderingRuleString (Json.obj fs)).data := by
          refine ⟨"\x7b".data, "\x7d".data, ?_⟩
          rw [e]
          simp [String.data_append]
        exact hinf.trans (h1.trans (h2.trans h3))
termination_by structural j _ _ => j

theorem serNodesList_data_infix : ∀ (xs : List Json) (v : Json),
    v ∈ serNodesList xs → ∃ x, x ∈ xs ∧
      (ExportImage.createOrderedRenderingRuleString v).data <:+:
        (ExportImage.createOrderedRenderingRuleString x).data
  | [], v, h => by
    have hs : serNodesList [] = ([] : List Json) := rfl
    rw [hs] at h
    cases h
  | x :: xs, v, h => by
    have hs : serNodesList (x :: xs) = serNodes x ++ serNodesList xs := rfl
    rw [hs] at h
    rcases List.mem_append.mp h with h1 | h2
    · exact ⟨x, List.mem_cons_self _ _, serNodes_data_infix x v h1⟩
    · obtain ⟨y, hy, hinf⟩ := serNodesList_data_infix xs v h2
      exact ⟨y, List.mem_cons_of_mem _ hy, hinf⟩
termination_by structural xs _ _ => xs

theorem serNodesFields_data_infix : ∀ (fs : List (String × Json)) (v : Json),
    v ∈ serNodesFields fs → ∃ k w, (k, w) ∈ fs ∧ k ≠ "rasterFunction" ∧
      isObjectType w = true ∧
      (ExportImage.createOrderedRenderingRuleString v).data <:+:
        (ExportImage.createOrderedRenderingRuleString w).data
  | [], v, h => by
    have hs : serNodesFields [] = ([] : List Json) := rfl
    rw [hs] at h
    cases h
  | (k, w) :: fs, v, h => by
    have hs : serNodesFields ((k, w) :: fs) =
        (if k = "rasterFunction" then serNodesFields fs
         else (if isObjectType w then serNodes w else []) ++ serNodesFields fs) := by
      by_cases hk : k = "rasterFunction" <;> simp [serNodesFields, hk]
    rw [hs] at h
    by_cases hk : k = "rasterFunction"
    · rw [if_pos hk] at h
      obtain ⟨k', w', hkw, hk', ho', hinf⟩ := serNodesFields_data_infix fs v h
      exact ⟨k', w', List.mem_cons_of_mem _ hkw, hk', ho', hinf⟩
    · rw [if_neg hk] at h
      rcases List.mem_append.mp h with h1 | h2
      · by_cases ho : isObjectType w
        · rw [if_pos ho] at h1
          exact ⟨k, w, List.mem_cons_self _ _, hk, ho, serNodes_data_infix w v h1⟩
        · rw [if_neg ho] at h1
          cases h1
      · obtain ⟨k', w', hkw, hk', ho', hinf⟩ := serNodesFields_data_infix fs v h2
        exact ⟨k', w', List.mem_cons_of_mem _ hkw, hk', ho', hinf⟩
termination_by structural fs _ _ => fs

end

/-- C1: for every JSON-compatible value passed to the ordered rendering-rule
serializer and for every object node the serializer reaches recursively — at
any nesting depth, through keys such as `rasterFunctionArguments` and through
array elements, arrays being serialized element-wise — if the node binds a
key named `rasterFunction` then the node's serialized encoding, which occurs
verbatim inside the full output, is an object literal whose first emitted key
is `rasterFunction`, every sibling key being emitted after it. -/
theorem c1_rasterFunction_first (root v : Json) (hv : v ∈ serNodes root)
    (gs : List (String × Json)) (hgs : v = Json.obj gs)
    (hrf : (lookupField gs "rasterFunction").isSome = true) :
    (∃ rest, ExportImage.createOrderedRenderingRuleString v =
      "\x7b\"rasterFunction\":" ++ rest) ∧
    (ExportImage.createOrderedRenderingRuleString v).data <:+:
      (ExportImage.createOrderedRenderingRuleString root).data := by
  refine ⟨?_, serNodes_data_infix root v hv⟩
  subst hgs
  obtain ⟨w, hw⟩ := Option.isSome_iff_exists.mp hrf
  exact ExportImage.cors_obj_rf gs w hw

/-- Witness for C1 at the specification's worked example
`{a:1, rasterFunction:"X", b:{rasterFunction:"Y", c:2}}`, instantiated at the
nested object node. -/
theorem c1_witness :
    (∃ rest, ExportImage.createOrderedRenderingRuleString
        (Json.obj [("rasterFunction", Json.str "Y"), ("c", Json.num 2)]) =
      "\x7b\"rasterFunction\":" ++ rest) ∧
    (ExportImage.createOrderedRenderingRuleString
        (Json.obj [("rasterFunction", Json.str "Y"), ("c", Json.num 2)])).data <:+:
      (ExportImage.createOrderedRenderingRuleString
        (Json.obj [("a", Json.num 1), ("rasterFunction", Json.str "X"),
          ("b", Json.obj [("rasterFunction", Json.str "Y"),
            ("c", Json.num 2)])])).data :=
  c1_rasterFunction_first
    (Json.obj [("a", Json.num 1), ("rasterFunction", Json.str "X"),
      ("b", Json.obj [("rasterFunction", Json.str "Y"), ("c", Json.num 2)])])
    (Json.obj [("rasterFunction", Json.str "Y"), ("c", Json.num 2)])
    (by
      have e : serNodes
          (Json.obj [("a", Json.num 1), ("rasterFunction", Json.str "X"),
            ("b", Json.obj [("rasterFunction", Json.str "Y"),
              ("c", Json.num 2)])]) =
          [Json.obj [("a", Json.num 1), ("rasterFunction", Json.str "X"),
            ("b", Json.obj [("rasterFunction", Json.str "Y"),
              ("c", Json.num 2)])],
           Json.obj [("rasterFunction", Json.str "Y"), ("c", Json.num 2)]] := rfl
      rw [e]
      exact List.mem_cons_of_mem _ (List.mem_cons_self _ _))
    [("rasterFunction", Json.str "Y"), ("c", Json.num 2)] rfl (by rfl)

/-- C9 counterexample: the serializer copy in `useImageLayer.tsx` emits a
string field value containing a double quote verbatim — without the
backslash-and-quote escaping the claim attributes to every copy — so its
output differs from the escaped output of the `exportImage.ts` copy (and is
not valid JSON). -/
theorem c9_counterexample :
    UseImageLayer.createOrderedRenderingRuleString
        (Json.obj [("k", Json.str "a\"b")]) = "\x7b\"k\":\"a\"b\"\x7d" ∧
    ExportImage.createOrderedRenderingRuleString
        (Json.obj [("k", Json.str "a\"b")]) = "\x7b\"k\":\"a\\\"b\"\x7d" ∧
    UseImageLayer.createOrderedRenderingRuleString
        (Json.obj [("k", Json.str "a\"b")]) ≠
      ExportImage.createOrderedRenderingRuleString
        (Json.obj [("k", Json.str "a\"b")]) := by
  refine ⟨rfl, rfl, ?_⟩
  decide

/-- C9 amended: the `exportImage.ts` serializer (and its identical
`CustomRendererImageOverlay.tsx` copy) emits string field values with
backslash and double quote escaped and string array elements through full
`JSON.stringify` encoding, while the `useImageLayer.tsx` copy interpolates
string field values verbatim, without any escaping. -/
theorem c9_amended (s : String) :
    ExportImage.createOrderedRenderingRuleString (Json.obj [("k", Json.str s)]) =
      ("\x7b\"k\":\"" ++ jsEscape s) ++ "\"\x7d" ∧
    UseImageLayer.createOrderedRenderingRuleString (Json.obj [("k", Json.str s)]) =
      ("\x7b\"k\":\"" ++ s) ++ "\"\x7d" ∧
    ExportImage.createOrderedRenderingRuleString (Json.arr [Json.str s]) =
      ("[" ++ jsonStringifyString s) ++ "]" ∧
    jsEscape "a\\b\"c" = "a\\\\b\\\"c" := by
  refine ⟨?_, ?_, rfl, rfl⟩
  · have e : ExportImage.createOrderedRenderingRuleString
        (Json.obj [("k", Json.str s)]) =
        "\x7b" ++ (("\"k\":\"" ++ jsEscape s) ++ "\"") ++ "\x7d" := rfl
    rw [e]
    simp only [String.append_assoc]
    rw [← String.append_assoc]
    rfl
  · have e : UseImageLayer.createOrderedRenderingRuleString
        (Json.obj [("k", Json.str s)]) =
        "\x7b" ++ (("\"k\":\"" ++ s) ++ "\"") ++ "\x7d" := rfl
    rw [e]
    simp only [String.append_assoc]
    rw [← String.append_assoc]
    rfl

/-- C10: whenever the input object binds `rasterFunction`, every serializer
copy emits the pair as `"rasterFunction":` followed by the value coerced to a
string by template interpolation and wrapped in double quotes — no escaping
and no recursive encoding — so an object value serializes as the string
`[object Object]` and a string value containing a double quote is emitted
verbatim (not preserved under JSON parsing). -/
theorem c10_rasterFunction_interpolated (fs : List (String × Json)) (w : Json)
    (h : lookupField fs "rasterFunction" = some w) :
    (∃ rest, ExportImage.createOrderedRenderingRuleString (Json.obj fs) =
      ("\x7b\"rasterFunction\":\"" ++ jsToString w) ++ ("\"" ++ rest)) ∧
    (∃ rest, UseImageLayer.createOrderedRenderingRuleString (Json.obj fs) =
      ("\x7b\"rasterFunction\":\"" ++ jsToString w) ++ ("\"" ++ rest)) ∧
    ExportImage.createOrderedRenderingRuleString
        (Json.obj [("rasterFunction", Json.obj [("a", Json.num 1)])]) =
      "\x7b\"rasterFunction\":\"[object Object]\"\x7d" ∧
    ExportImage.createOrderedRenderingRuleString
        (Json.obj [("rasterFunction", Json.str "a\"b")]) =
      "\x7b\"rasterFunction\":\"a\"b\"\x7d" := by
  refine ⟨?_, ?_, rfl, rfl⟩
  · obtain ⟨t, ht⟩ := joinSep_cons_exists ","
      ("\"rasterFunction\":\"" ++ jsToString w ++ "\"") (ExportImage.corsFields fs)
    refine ⟨t ++ "\x7d", ?_⟩
    have e : ExportImage.createOrderedRenderingRuleString (Json.obj fs) =
        "\x7b" ++ joinSep ","
          (("\"rasterFunction\":\"" ++ jsToString w ++ "\"") ::
            ExportImage.corsFields fs) ++ "\x7d" := by
      simp [ExportImage.createOrderedRenderingRuleString, h]
    rw [e, ht]
    simp only [String.append_assoc]
    rw [← String.append_assoc]
    rfl
  · obtain ⟨t, ht⟩ := joinSep_cons_exists ","
      ("\"rasterFunction\":\"" ++ jsToString w ++ "\"") (UseImageLayer.corsFields fs)
    refine ⟨t ++ "\x7d", ?_⟩
    have e : UseImageLayer.createOrderedRenderingRuleString (Json.obj fs) =
        "\x7b" ++ joinSep ","
          (("\"rasterFunction\":\"" ++ jsToString w ++ "\"") ::
            UseImageLayer.corsFields fs) ++ "\x7d" := by
      simp [UseImageLayer.createOrderedRenderingRuleString, h]
    rw [e, ht]
    simp only [String.append_assoc]
    rw [← String.append_assoc]
    rfl

/-- Witness for C10 at one concrete renderer definition that also matches the
specification's single-scene scenario (`"rasterFunction":"Agriculture"`
emitted first). -/
theorem c10_witness :
    (∃ rest, ExportImage.createOrderedRenderingRuleString
        (Json.obj [("rasterFunction", Json.str "Agriculture"),
          ("rasterFunctionArguments", Json.obj [("Raster", Json.str "$$")])]) =
      ("\x7b\"rasterFunction\":\"" ++ jsToString (Json.str "Agriculture")) ++
        ("\"" ++ rest)) ∧
    (∃ rest, UseImageLayer.createOrderedRenderingRuleString
        (Json.obj [("rasterFunction", Json.str "Agriculture"),
          ("rasterFunctionArguments", Json.obj [("Raster", Json.str "$$")])]) =
      ("\x7b\"rasterFunction\":\"" ++ jsToString (Json.str "Agriculture")) ++
        ("\"" ++ rest)) ∧
    ExportImage.createOrderedRenderingRuleString
        (Json.obj [("rasterFunction", Json.obj [("a", Json.num 1)])]) =
      "\x7b\"rasterFunction\":\"[object Object]\"\x7d" ∧
    ExportImage.createOrderedRenderingRuleString
        (Json.obj [("rasterFunction", Json.str "a\"b")]) =
      "\x7b\"rasterFunction\":\"a\"b\"\x7d" :=
  c10_rasterFunction_interpolated
    [("rasterFunction", Json.str "Agriculture"),
      ("rasterFunctionArguments", Json.obj [("Raster", Json.str "$$")])]
    (Json.str "Agriculture") rfl

/-- C6 counterexample: the composite mosaic-rule builder, given the single
scene id 101 and method `min`, produces a composite-tagged rule (operation
`min` over `[101]`) rather than rejecting the request or normalizing it to
the single-lock rule (which carries no operation). -/
theorem c6_counterexample :
    compositeMosaicRule (some [101]) CompositeMethod.min =
      some { method := "lock-raster", ascending := false,
             lockRasterIds := [101],
             operation := some CompositeMethod.min,
             whereClause := "objectid in (101)" } ∧
    compositeMosaicRule (some [101]) CompositeMethod.min ≠
      getLockRasterMosaicRule (some 101) := by
  refine ⟨by decide, by decide⟩

/-- C6 amended: the builder rejects only an empty or missing selection; any
non-empty selection — a singleton included — yields a lock-raster rule tagged
with the composite operation.  `{101, 102, 103}` with `min` yields the
composite rule over exactly those ids with operation `min`; `{101}` with
`min` yields the same form of rule locked to 101 and still tagged `min`.
Fewer than two ids are refused only upstream, by the generate-composite
button's disabled check. -/
theorem c6_amended :
    (∀ m : CompositeMethod, compositeMosaicRule none m = none) ∧
    (∀ m : CompositeMethod, compositeMosaicRule (some []) m = none) ∧
    compositeMosaicRule (some [101, 102, 103]) CompositeMethod.min =
      some { method := "lock-raster", ascending := false,
             lockRasterIds := [101, 102, 103],
             operation := some CompositeMethod.min,
             whereClause := "objectid in (101,102,103)" } ∧
    compositeMosaicRule (some [101]) CompositeMethod.min =
      some { method := "lock-raster", ascending := false,
             lockRasterIds := [101],
             operation := some CompositeMethod.min,
             whereClause := "objectid in (101)" } ∧
    generateCompositeIsDisabled (some [101]) = true ∧
    generateCompositeIsDisabled (some [101, 102, 103]) = false := by
  refine ⟨fun m => rfl, fun m => rfl, by decide, by decide, rfl, rfl⟩

/-- C2 counterexample: fetch A (job 1) starts, fetch B (job 2) starts before A
resolves and thereby aborts A's controller; the transport does not honour the
abort and delivers A's response successfully — and A's continuation commits
it: the stale layer 1 becomes the overlay, because no abort-token check
precedes the commit. -/
theorem c2_counterexample :
    1 ∈ (CustomRendererImageOverlay.fetchImageStart 2
          (CustomRendererImageOverlay.fetchImageStart 1
            ⟨none, [], none, [], none⟩)).abortedControllers ∧
    (CustomRendererImageOverlay.fetchImageResolve 1
        (CustomRendererImageOverlay.FetchOutcome.success true)
        (CustomRendererImageOverlay.fetchImageStart 2
          (CustomRendererImageOverlay.fetchImageStart 1
            ⟨none, [], none, [], none⟩))).layerRef = some 1 ∧
    (CustomRendererImageOverlay.fetchImageResolve 1
        (CustomRendererImageOverlay.FetchOutcome.success true)
        (CustomRendererImageOverlay.fetchImageStart 2
          (CustomRendererImageOverlay.fetchImageStart 1
            ⟨none, [], none, [], none⟩))).mapLayers = [1] := by
  decide

/-- C2 amended: issuing a new fetch signals the previous fetch's abort token,
and an error resolution — the AbortError raised by a transport that honours
the abort included — has no effect on the overlay; but the abort token is
never checked before commit, so suppression of a stale success rests wholly
on the transport: a successful resolution commits unconditionally, aborted or
not. -/
theorem c2_amended (s : CustomRendererImageOverlay.OverlayState) (c j : Nat)
    (h : s.abortController = some c) :
    ((CustomRendererImageOverlay.fetchImageStart j s).abortedControllers =
        c :: s.abortedControllers ∧
      (CustomRendererImageOverlay.fetchImageStart j s).abortController = some j) ∧
    (∀ (s' : CustomRendererImageOverlay.OverlayState)
       (o : CustomRendererImageOverlay.FetchOutcome),
       (∀ b, o ≠ CustomRendererImageOverlay.FetchOutcome.success b) →
       (CustomRendererImageOverlay.fetchImageResolve j o s').layerRef =
           s'.layerRef ∧
         (CustomRendererImageOverlay.fetchImageResolve j o s').mapLayers =
           s'.mapLayers) ∧
    (∀ (s' : CustomRendererImageOverlay.OverlayState) (b : Bool),
       CustomRendererImageOverlay.fetchImageResolve j
           (CustomRendererImageOverlay.FetchOutcome.success b) s' =
         { CustomRendererImageOverlay.addNewLayer j
             (CustomRendererImageOverlay.removeOldLayer s') with
           loading := some false }) := by
  refine ⟨⟨?_, rfl⟩, ?_, fun s' b => rfl⟩
  · simp [CustomRendererImageOverlay.fetchImageStart, h]
  · intro s' o ho
    cases o with
    | success b => exact absurd rfl (ho b)
    | httpError status => exact ⟨rfl, rfl⟩
    | transportError => exact ⟨rfl, rfl⟩
    | abortError => exact ⟨rfl, rfl⟩

/-- Witness for C2 (amended) at a concrete state holding controller 0 and
overlay 5, with job 1 and an abort-error resolution. -/
theorem c2_witness :
    ((CustomRendererImageOverlay.fetchImageStart 1
        ⟨some 0, [], some 5, [5], none⟩).abortedControllers = 0 :: [] ∧
      (CustomRendererImageOverlay.fetchImageStart 1
        ⟨some 0, [], some 5, [5], none⟩).abortController = some 1) ∧
    (∀ (s' : CustomRendererImageOverlay.OverlayState)
       (o : CustomRendererImageOverlay.FetchOutcome),
       (∀ b, o ≠ CustomRendererImageOverlay.FetchOutcome.success b) →
       (CustomRendererImageOverlay.fetchImageResolve 1 o s').layerRef =
           s'.layerRef ∧
         (CustomRendererImageOverlay.fetchImageResolve 1 o s').mapLayers =
           s'.mapLayers) ∧
    (∀ (s' : CustomRendererImageOverlay.OverlayState) (b : Bool),
       CustomRendererImageOverlay.fetchImageResolve 1
           (CustomRendererImageOverlay.FetchOutcome.success b) s' =
         { CustomRendererImageOverlay.addNewLayer 1
             (CustomRendererImageOverlay.removeOldLayer s') with
           loading := some false }) :=
  c2_amended ⟨some 0, [], some 5, [5], none⟩ 0 1 rfl

/-- C3 counterexample: in the composite path the export helper never checks
`response.ok`, so a delivered non-2xx response whose body decodes as an image
is committed exactly like a success: with overlay 5 displayed, the resolution
of a non-ok but decodable response replaces it by the broken layer 1 — the
currently displayed overlay is altered by a non-success HTTP status. -/
theorem c3_counterexample :
    (CompositeLayer.createCustomRendererLayerResolve 1
        (CompositeLayer.CompFetchOutcome.delivered false true)
        ⟨some 1, [], some 5, [5], []⟩).layerRef = some 1 ∧
    (CompositeLayer.createCustomRendererLayerResolve 1
        (CompositeLayer.CompFetchOutcome.delivered false true)
        ⟨some 1, [], some 5, [5], []⟩).groupLayers = [1] ∧
    CompositeLayer.createCustomRendererLayerResolve 1
        (CompositeLayer.CompFetchOutcome.delivered false true)
        ⟨some 1, [], some 5, [5], []⟩ =
      CompositeLayer.createCustomRendererLayerResolve 1
        (CompositeLayer.CompFetchOutcome.delivered true true)
        ⟨some 1, [], some 5, [5], []⟩ := by
  decide

/-- C3 amended: in the overlay path every fetch error — the thrown non-ok
status, transport errors, cancellation — leaves the displayed overlay
untouched (layer slot and attached layers unchanged, the catch only logs and
resets the loading flag).  In the composite path transport errors and aborts
change nothing, and an undecodable payload leaves the layer slot and group
unchanged; but the HTTP status is never checked there: a delivered non-2xx
response is processed exactly like a 2xx one, so a non-success response whose
body decodes as an image does replace the overlay. -/
theorem c3_amended (j : Nat) :
    (∀ (s : CustomRendererImageOverlay.OverlayState)
       (o : CustomRendererImageOverlay.FetchOutcome),
       (∀ b, o ≠ CustomRendererImageOverlay.FetchOutcome.success b) →
       (CustomRendererImageOverlay.fetchImageResolve j o s).layerRef =
           s.layerRef ∧
         (CustomRendererImageOverlay.fetchImageResolve j o s).mapLayers =
           s.mapLayers) ∧
    (∀ (s : CompositeLayer.CompositeState) (o : CompositeLayer.CompFetchOutcome),
       (∀ ok b, o ≠ CompositeLayer.CompFetchOutcome.delivered ok b) →
       CompositeLayer.createCustomRendererLayerResolve j o s = s) ∧
    (∀ (s : CompositeLayer.CompositeState) (ok : Bool),
       (CompositeLayer.createCustomRendererLayerResolve j
           (CompositeLayer.CompFetchOutcome.delivered ok false) s).layerRef =
           s.layerRef ∧
         (CompositeLayer.createCustomRendererLayerResolve j
           (CompositeLayer.CompFetchOutcome.delivered ok false) s).groupLayers =
           s.groupLayers) ∧
    (∀ (s : CompositeLayer.CompositeState) (d : Bool),
       CompositeLayer.createCustomRendererLayerResolve j
           (CompositeLayer.CompFetchOutcome.delivered false d) s =
         CompositeLayer.createCustomRendererLayerResolve j
           (CompositeLayer.CompFetchOutcome.delivered true d) s) := by
  refine ⟨?_, ?_, fun s ok => ⟨rfl, rfl⟩, fun s d => rfl⟩
  · intro s o ho
    cases o with
    | success b => exact absurd rfl (ho b)
    | httpError status => exact ⟨rfl, rfl⟩
    | transportError => exact ⟨rfl, rfl⟩
    | abortError => exact ⟨rfl, rfl⟩
  · intro s o ho
    cases o with
    | delivered ok b => exact absurd rfl (ho ok b)
    | transportError => rfl
    | abortError => rfl

/-- Witness for C3 (amended) at a concrete displayed overlay: an HTTP 500
outcome on the overlay path, and on the composite path a transport error, a
non-2xx undecodable delivery, and the indifference of the resolution to the
HTTP status. -/
theorem c3_witness :
    ((CustomRendererImageOverlay.fetchImageResolve 9
        (CustomRendererImageOverlay.FetchOutcome.httpError 500)
        ⟨some 9, [], some 5, [5], some true⟩).layerRef = some 5 ∧
      (CustomRendererImageOverlay.fetchImageResolve 9
        (CustomRendererImageOverlay.FetchOutcome.httpError 500)
        ⟨some 9, [], some 5, [5], some true⟩).mapLayers = [5]) ∧
    CompositeLayer.createCustomRendererLayerResolve 9
        CompositeLayer.CompFetchOutcome.transportError
        ⟨some 9, [], some 5, [5], [3]⟩ = ⟨some 9, [], some 5, [5], [3]⟩ ∧
    ((CompositeLayer.createCustomRendererLayerResolve 9
        (CompositeLayer.CompFetchOutcome.delivered false false)
        ⟨some 9, [], some 5, [5], [3]⟩).layerRef = some 5 ∧
      (CompositeLayer.createCustomRendererLayerResolve 9
        (CompositeLayer.CompFetchOutcome.delivered false false)
        ⟨some 9, [], some 5, [5], [3]⟩).groupLayers = [5]) ∧
    CompositeLayer.createCustomRendererLayerResolve 9
        (CompositeLayer.CompFetchOutcome.delivered false true)
        ⟨some 9, [], some 5, [5], [3]⟩ =
      CompositeLayer.createCustomRendererLayerResolve 9
        (CompositeLayer.CompFetchOutcome.delivered true true)
        ⟨some 9, [], some 5, [5], [3]⟩ :=
  ⟨(c3_amended 9).1 ⟨some 9, [], some 5, [5], some true⟩
    (CustomRendererImageOverlay.FetchOutcome.httpError 500)
    (fun b h => by cases h),
   (c3_amended 9).2.1 ⟨some 9, [], some 5, [5], [3]⟩
    CompositeLayer.CompFetchOutcome.transportError
    (fun ok b h => by cases h),
   (c3_amended 9).2.2.1 ⟨some 9, [], some 5, [5], [3]⟩ false,
   (c3_amended 9).2.2.2 ⟨some 9, [], some 5, [5], [3]⟩ true⟩

/-- C4 counterexample: with overlay 5 displayed and attached, the commit for
job 7 first removes overlay 5 from the map — at that intermediate point the
view holds neither the old overlay nor the new one — and only then inserts
overlay 7: the code removes before it inserts, the reverse of the claimed
ordering. -/
theorem c4_counterexample :
    (CustomRendererImageOverlay.removeOldLayer
        ⟨some 0, [], some 5, [5], none⟩).mapLayers = [] ∧
    CustomRendererImageOverlay.fetchImageResolve 7
        (CustomRendererImageOverlay.FetchOutcome.success true)
        ⟨some 0, [], some 5, [5], none⟩ =
      { CustomRendererImageOverlay.addNewLayer 7
          (CustomRendererImageOverlay.removeOldLayer
            ⟨some 0, [], some 5, [5], none⟩) with loading := some false } ∧
    (CustomRendererImageOverlay.fetchImageResolve 7
        (CustomRendererImageOverlay.FetchOutcome.success true)
        ⟨some 0, [], some 5, [5], none⟩).mapLayers = [7] := by
  decide

/-- C4 amended: the overlay swap removes the previous overlay from the map
before inserting the new one — between the two steps the view holds neither
overlay — and after the swap the view holds exactly the new overlay in place
of the old. -/
theorem c4_amended (s : CustomRendererImageOverlay.OverlayState) (j old : Nat)
    (h : s.layerRef = some old) (hnd : s.mapLayers.Nodup)
    (hj : j ∉ s.mapLayers) :
    (CustomRendererImageOverlay.removeOldLayer s).mapLayers =
        s.mapLayers.erase old ∧
    old ∉ (CustomRendererImageOverlay.removeOldLayer s).mapLayers ∧
    j ∉ (CustomRendererImageOverlay.removeOldLayer s).mapLayers ∧
    (∀ b : Bool,
      CustomRendererImageOverlay.fetchImageResolve j
          (CustomRendererImageOverlay.FetchOutcome.success b) s =
        { CustomRendererImageOverlay.addNewLayer j
            (CustomRendererImageOverlay.removeOldLayer s) with
          loading := some false }) ∧
    (∀ b : Bool,
      (CustomRendererImageOverlay.fetchImageResolve j
          (CustomRendererImageOverlay.FetchOutcome.success b) s).mapLayers =
        s.mapLayers.erase old ++ [j] ∧
      (CustomRendererImageOverlay.fetchImageResolve j
          (CustomRendererImageOverlay.FetchOutcome.success b) s).layerRef =
        some j) := by
  have hrm : (CustomRendererImageOverlay.removeOldLayer s).mapLayers =
      s.mapLayers.erase old := by
    simp [CustomRendererImageOverlay.removeOldLayer, h]
  refine ⟨hrm, ?_, ?_, fun b => rfl, fun b => ⟨?_, rfl⟩⟩
  · rw [hrm]
    exact hnd.not_mem_erase
  · rw [hrm]
    intro hmem
    exact hj (List.mem_of_mem_erase hmem)
  · show (CustomRendererImageOverlay.addNewLayer j
      (CustomRendererImageOverlay.removeOldLayer s)).mapLayers =
      s.mapLayers.erase old ++ [j]
    rw [CustomRendererImageOverlay.addNewLayer, hrm]

/-- Witness for C4 (amended) at the concrete state displaying overlay 5 with
incoming job 7. -/
theorem c4_witness :
    (CustomRendererImageOverlay.removeOldLayer
        ⟨some 0, [], some 5, [5], none⟩).mapLayers = [5].erase 5 ∧
    5 ∉ (CustomRendererImageOverlay.removeOldLayer
        ⟨some 0, [], some 5, [5], none⟩).mapLayers ∧
    7 ∉ (CustomRendererImageOverlay.removeOldLayer
        ⟨some 0, [], some 5, [5], none⟩).mapLayers ∧
    (∀ b : Bool,
      CustomRendererImageOverlay.fetchImageResolve 7
          (CustomRendererImageOverlay.FetchOutcome.success b)
          ⟨some 0, [], some 5, [5], none⟩ =
        { CustomRendererImageOverlay.addNewLayer 7
            (CustomRendererImageOverlay.removeOldLayer
              ⟨some 0, [], some 5, [5], none⟩) with
          loading := some false }) ∧
    (∀ b : Bool,
      (CustomRendererImageOverlay.fetchImageResolve 7
          (CustomRendererImageOverlay.FetchOutcome.success b)
          ⟨some 0, [], some 5, [5], none⟩).mapLayers = [5].erase 5 ++ [7] ∧
      (CustomRendererImageOverlay.fetchImageResolve 7
          (CustomRendererImageOverlay.FetchOutcome.success b)
          ⟨some 0, [], some 5, [5], none⟩).layerRef = some 7) :=
  c4_amended ⟨some 0, [], some 5, [5], none⟩ 7 5 rfl (by decide) (by decide)

/-- C7 counterexample: in the overlay path a successful HTTP response whose
payload does not decode to an image is committed anyway — the overlay slot
and map change from overlay 5 to the broken layer 1; the resolution is
identical to that of a decodable payload, so decode failure is not handled
like a fetch failure there. -/
theorem c7_counterexample :
    (CustomRendererImageOverlay.fetchImageResolve 1
        (CustomRendererImageOverlay.FetchOutcome.success false)
        ⟨some 1, [], some 5, [5], none⟩).layerRef = some 1 ∧
    (CustomRendererImageOverlay.fetchImageResolve 1
        (CustomRendererImageOverlay.FetchOutcome.success false)
        ⟨some 1, [], some 5, [5], none⟩).mapLayers = [1] ∧
    CustomRendererImageOverlay.fetchImageResolve 1
        (CustomRendererImageOverlay.FetchOutcome.success false)
        ⟨some 1, [], some 5, [5], none⟩ =
      CustomRendererImageOverlay.fetchImageResolve 1
        (CustomRendererImageOverlay.FetchOutcome.success true)
        ⟨some 1, [], some 5, [5], none⟩ := by
  decide

/-- C7 amended: the composite path decodes the delivered payload before any
commit — an undecodable payload leaves the layer slot and the group layers
untouched whatever the HTTP status, retaining only the already-created
object URL — whereas the overlay path has no decode step: its success
resolution is the same function of the state whether or not the payload is
decodable. -/
theorem c7_amended (j : Nat) :
    (∀ (s : CompositeLayer.CompositeState) (ok : Bool),
      (CompositeLayer.createCustomRendererLayerResolve j
          (CompositeLayer.CompFetchOutcome.delivered ok false) s).layerRef =
          s.layerRef ∧
      (CompositeLayer.createCustomRendererLayerResolve j
          (CompositeLayer.CompFetchOutcome.delivered ok false) s).groupLayers =
          s.groupLayers ∧
      (CompositeLayer.createCustomRendererLayerResolve j
          (CompositeLayer.CompFetchOutcome.delivered ok false) s).blobUrls =
          s.blobUrls ++ [j]) ∧
    (∀ (s : CompositeLayer.CompositeState) (ok : Bool),
      (CompositeLayer.createCustomRendererLayerResolve j
          (CompositeLayer.CompFetchOutcome.delivered ok true) s).layerRef =
        some j) ∧
    (∀ (s : CustomRendererImageOverlay.OverlayState) (b : Bool),
      CustomRendererImageOverlay.fetchImageResolve j
          (CustomRendererImageOverlay.FetchOutcome.success b) s =
        CustomRendererImageOverlay.fetchImageResolve j
          (CustomRendererImageOverlay.FetchOutcome.success true) s) := by
  refine ⟨fun s ok => ⟨rfl, rfl, rfl⟩, ?_, fun s b => rfl⟩
  intro s ok
  obtain ⟨ac, ab, lr, gl, bu⟩ := s
  cases lr <;> rfl

/-- C5 counterexample: a capture attempt running through the custom-overlay
callback `handleCaptureScreenshot` with pending renderer "r7" that faults at
the screenshot stage terminates with the pending flag still set to "r7" —
the callback has no catch clause, so the error propagates before the
clearing dispatch runs. -/
theorem c5_counterexample :
    ScreenshotCapture.handleCaptureScreenshot
        (some ScreenshotCapture.CaptureStage.screenshot) "img"
        ⟨some "r7", [], []⟩ = ⟨some "r7", [], []⟩ ∧
    (ScreenshotCapture.handleCaptureScreenshot
        (some ScreenshotCapture.CaptureStage.screenshot) "img"
        ⟨some "r7", [], []⟩).pendingScreenshotRendererId = some "r7" ∧
    ScreenshotCapture.handleCaptureScreenshot
        (some ScreenshotCapture.CaptureStage.firestoreUpdate) "img"
        ⟨some "r7", [], []⟩ = ⟨some "r7", [], []⟩ := by
  refine ⟨rfl, rfl, rfl⟩

/-- C5 amended: the `handleLayerUpdate` coordinators (in `CompositeLayer` and
in the regular-renderer path) clear the pending-capture flag on every
terminal outcome, success or an error at any stage, thanks to their catch
clause; the `handleCaptureScreenshot` callback of the custom-overlay path
clears it only on success — an error at the screenshot or storage stage
leaves the whole state, the pending flag included, unchanged. -/
theorem c5_amended (failAt : Option ScreenshotCapture.CaptureStage)
    (img : String) (s : ScreenshotCapture.CoordState) :
    (ScreenshotCapture.handleLayerUpdate failAt img
        s).pendingScreenshotRendererId = none ∧
    (ScreenshotCapture.handleCaptureScreenshot none img
        s).pendingScreenshotRendererId = none ∧
    (∀ st : ScreenshotCapture.CaptureStage,
      ScreenshotCapture.handleCaptureScreenshot (some st) img s = s) := by
  obtain ⟨pending, reg, fsimgs⟩ := s
  refine ⟨?_, ?_, ?_⟩
  · cases pending with
    | none =>
      cases failAt with
      | none => rfl
      | some st => rfl
    | some rid =>
      cases failAt with
      | none => rfl
      | some st => rfl
  · cases pending with
    | none => rfl
    | some rid => rfl
  · intro st
    cases pending with
    | none => rfl
    | some rid => rfl

theorem rfEmittedFirst_of_not_obj (enc : Json → String) (v : Json)
    (h : ∀ gs : List (String × Json), v ≠ Json.obj gs) :
    RfEmittedFirst enc v :=
  fun gs hgs _ => absurd hgs (h gs)

theorem normFields_cons (k : String) (v : Json) (fs : List (String × Json)) :
    normFields ((k, v) :: fs) =
      if k = "rasterFunction" then normFields fs
      else
        (match v with
         | .obj gs => (k, normalizeRasterFunctionOrder (.obj gs))
         | .arr xs => (k, .arr (normList xs))
         | w => (k, w)) :: normFields fs := by
  cases v <;> rfl

theorem lookup_normFields_rf_none (fs : List (String × Json)) :
    lookupField (normFields fs) "rasterFunction" = none := by
  induction fs with
  | nil => rfl
  | cons p fs ih =>
    obtain ⟨k, v⟩ := p
    rw [normFields_cons]
    by_cases hk : k = "rasterFunction"
    · rw [if_pos hk]
      exact ih
    · rw [if_neg hk]
      cases v <;> simp [lookupField, hk, ih]

theorem stringifyNodes_obj (fs : List (String × Json)) :
    stringifyNodes (Json.obj fs) = Json.obj fs :: stringifyNodesFields fs := rfl

theorem stringifyNodes_arr (xs : List Json) :
    stringifyNodes (Json.arr xs) = Json.arr xs :: stringifyNodesList xs := rfl

theorem stringifyNodesFields_cons (k : String) (v : Json)
    (fs : List (String × Json)) :
    stringifyNodesFields ((k, v) :: fs) =
      stringifyNodes v ++ stringifyNodesFields fs := rfl

theorem stringifyNodesList_cons (x : Json) (xs : List Json) :
    stringifyNodesList (x :: xs) =
      stringifyNodes x ++ stringifyNodesList xs := rfl

theorem normalize_obj_some (fs : List (String × Json)) (w : Json)
    (h : lookupField fs "rasterFunction" = some w) :
    normalizeRasterFunctionOrder (Json.obj fs) =
      Json.obj (("rasterFunction", w) :: normFields fs) := by
  simp [normalizeRasterFunctionOrder, h]

theorem normalize_obj_none (fs : List (String × Json))
    (h : lookupField fs "rasterFunction" = none) :
    normalizeRasterFunctionOrder (Json.obj fs) = Json.obj (normFields fs) := by
  simp [normalizeRasterFunctionOrder, h]

theorem goodJson_obj_some (fs : List (String × Json)) (w : Json)
    (h : lookupField fs "rasterFunction" = some w)
    (hg : goodJson (Json.obj fs) = true) :
    isObjectType w = false ∧ goodFields fs = true := by
  have hg' : ((match lookupField fs "rasterFunction" with
      | some v => !isObjectType v
      | none => true) && goodFields fs) = true := hg
  rw [h] at hg'
  rw [Bool.and_eq_true] at hg'
  obtain ⟨h1, h2⟩ := hg'
  exact ⟨by simpa using h1, h2⟩

theorem goodJson_obj_fields (fs : List (String × Json))
    (hg : goodJson (Json.obj fs) = true) : goodFields fs = true := by
  have hg' : ((match lookupField fs "rasterFunction" with
      | some v => !isObjectType v
      | none => true) && goodFields fs) = true := hg
  rw [Bool.and_eq_true] at hg'
  exact hg'.2

theorem goodFields_cons (k : String) (v : Json) (fs : List (String × Json))
    (hg : goodFields ((k, v) :: fs) = true) :
    goodJson v = true ∧ goodFields fs = true := by
  have hg' : (goodJson v && goodFields fs) = true := hg
  rw [Bool.and_eq_true] at hg'
  exact hg'

theorem goodElems_cons (x : Json) (xs : List Json)
    (hg : goodElems (x :: xs) = true) :
    isArrayVal x = false ∧ goodJson x = true ∧ goodElems xs = true := by
  have hg' : (!isArrayVal x && goodJson x && goodElems xs) = true := hg
  rw [Bool.and_eq_true, Bool.and_eq_true] at hg'
  obtain ⟨⟨h1a, h2⟩, h3⟩ := hg'
  exact ⟨by simpa using h1a, h2, h3⟩

theorem normFields_cons_obj (k : String) (gs : List (String × Json))
    (fs : List (String × Json)) (hk : ¬k = "rasterFunction") :
    normFields ((k, Json.obj gs) :: fs) =
      (k, normalizeRasterFunctionOrder (Json.obj gs)) :: normFields fs := by
  rw [normFields_cons, if_neg hk]

theorem normFields_cons_arr (k : String) (xs : List Json)
    (fs : List (String × Json)) (hk : ¬k = "rasterFunction") :
    normFields ((k, Json.arr xs) :: fs) =
      (k, Json.arr (normList xs)) :: normFields fs := by
  rw [normFields_cons, if_neg hk]

theorem normFields_cons_other (k : String) (w : Json)
    (fs : List (String × Json)) (hk : ¬k = "rasterFunction")
    (h1 : ∀ gs, w ≠ Json.obj gs) (h2 : ∀ xs, w ≠ Json.arr xs) :
    normFields ((k, w) :: fs) = (k, w) :: normFields fs := by
  cases w with
  | obj gs => exact absurd rfl (h1 gs)
  | arr xs => exact absurd rfl (h2 xs)
  | str s => rw [normFields_cons, if_neg hk]
  | num n => rw [normFields_cons, if_neg hk]
  | bool b => rw [normFields_cons, if_neg hk]
  | null => rw [normFields_cons, if_neg hk]

mutual

theorem norm_stringify_rf_first : ∀ (j : Json), goodJson j = true →
    isArrayVal j = false →
    ∀ v ∈ stringifyNodes (normalizeRasterFunctionOrder j),
      RfEmittedFirst jsonStringify v
  | .str s, _, _, v, hv => by
    have e : stringifyNodes (normalizeRasterFunctionOrder (Json.str s)) =
        [Json.str s] := rfl
    rw [e] at hv
    obtain rfl := List.mem_singleton.mp hv
    exact rfEmittedFirst_of_not_obj _ _ (fun gs h => Json.noConfusion h)
  | .num n, _, _, v, hv => by
    have e : stringifyNodes (normalizeRasterFunctionOrder (Json.num n)) =
        [Json.num n] := rfl
    rw [e] at hv
    obtain rfl := List.mem_singleton.mp hv
    exact rfEmittedFirst_of_not_obj _ _ (fun gs h => Json.noConfusion h)
  | .bool b, _, _, v, hv => by
    have e : stringifyNodes (normalizeRasterFunctionOrder (Json.bool b)) =
        [Json.bool b] := rfl
    rw [e] at hv
    obtain rfl := List.mem_singleton.mp hv
    exact rfEmittedFirst_of_not_obj _ _ (fun gs h => Json.noConfusion h)
  | .null, _, _, v, hv => by
    have e : stringifyNodes (normalizeRasterFunctionOrder Json.null) =
        [Json.null] := rfl
    rw [e] at hv
    obtain rfl := List.mem_singleton.mp hv
    exact rfEmittedFirst_of_not_obj _ _ (fun gs h => Json.noConfusion h)
  | .arr xs, _, ha, v, hv => by
    exact absurd ha (by simp [isArrayVal])
  | .obj fs, hg, _, v, hv => by
    cases hrf : lookupField fs "rasterFunction" with
    | some w =>
      obtain ⟨hgw, hgf⟩ := goodJson_obj_some fs w hrf hg
      rw [normalize_obj_some fs w hrf, stringifyNodes_obj] at hv
      rcases List.mem_cons.mp hv with rfl | hv'
      · intro gs hgs hsome
        injection hgs with hgs'
        subst hgs'
        exact jsonStringify_rf_head w (normFields fs)
      · rw [stringifyNodesFields_cons] at hv'
        rcases List.mem_append.mp hv' with h1 | h2
        · cases w with
          | str s =>
            have e : stringifyNodes (Json.str s) = [Json.str s] := rfl
            rw [e] at h1
            obtain rfl := List.mem_singleton.mp h1
            exact rfEmittedFirst_of_not_obj _ _ (fun gs h => Json.noConfusion h)
          | num n =>
            have e : stringifyNodes (Json.num n) = [Json.num n] := rfl
            rw [e] at h1
            obtain rfl := List.mem_singleton.mp h1
            exact rfEmittedFirst_of_not_obj _ _ (fun gs h => Json.noConfusion h)
          | bool b =>
            have e : stringifyNodes (Json.bool b) = [Json.bool b] := rfl
            rw [e] at h1
            obtain rfl := List.mem_singleton.mp h1
            exact rfEmittedFirst_of_not_obj _ _ (fun gs h => Json.noConfusion h)
          | null => exact absurd hgw (by simp [isObjectType])
          | arr ys => exact absurd hgw (by simp [isObjectType])
          | obj gs2 => exact absurd hgw (by simp [isObjectType])
        · exact norm_fields_rf_first fs hgf v h2
    | none =>
      have hgf := goodJson_obj_fields fs hg
      rw [normalize_obj_none fs hrf, stringifyNodes_obj] at hv
      rcases List.mem_cons.mp hv with rfl | hv'
      · intro gs hgs hsome
        injection hgs with hgs'
        subst hgs'
        rw [lookup_normFields_rf_none fs] at hsome
        exact absurd hsome (by simp)
      · exact norm_fields_rf_first fs hgf v hv'
termination_by structural j _ _ _ _ => j

theorem norm_fields_rf_first : ∀ (fs : List (String × Json)),
    goodFields fs = true →
    ∀ v ∈ stringifyNodesFields (normFields fs), RfEmittedFirst jsonStringify v
  | [], _, v, hv => by
    have e : stringifyNodesFields (normFields []) = [] := rfl
    rw [e] at hv
    cases hv
  | (k, w) :: fs, hg, v, hv => by
    obtain ⟨hgw, hgf⟩ := goodFields_cons k w fs hg
    by_cases hk : k = "rasterFunction"
    · rw [normFields_cons, if_pos hk] at hv
      exact norm_fields_rf_first fs hgf v hv
    · cases w with
      | obj gs2 =>
        rw [normFields_cons_obj k gs2 fs hk, stringifyNodesFields_cons] at hv
        rcases List.mem_append.mp hv with h1 | h2
        · exact norm_stringify_rf_first (Json.obj gs2) hgw rfl v h1
        · exact norm_fields_rf_first fs hgf v h2
      | arr ys =>
        rw [normFields_cons_arr k ys fs hk, stringifyNodesFields_cons,
          stringifyNodes_arr] at hv
        rcases List.mem_append.mp hv with h1 | h2
        · rcases List.mem_cons.mp h1 with rfl | h1'
          · exact rfEmittedFirst_of_not_obj _ _ (fun gs h => Json.noConfusion h)
          · have helems : goodElems ys = true := hgw
            exact norm_elems_rf_first ys helems v h1'
        · exact norm_fields_rf_first fs hgf v h2
      | str s =>
        rw [normFields_cons_other k (Json.str s) fs hk
            (fun gs h => Json.noConfusion h) (fun xs h => Json.noConfusion h),
          stringifyNodesFields_cons] at hv
        rcases List.mem_append.mp hv with h1 | h2
        · have e : stringifyNodes (Json.str s) = [Json.str s] := rfl
          rw [e] at h1
          obtain rfl := List.mem_singleton.mp h1
          exact rfEmittedFirst_of_not_obj _ _ (fun gs h => Json.noConfusion h)
        · exact norm_fields_rf_first fs hgf v h2
      | num n =>
        rw [normFields_cons_other k (Json.num n) fs hk
            (fun gs h => Json.noConfusion h) (fun xs h => Json.noConfusion h),
          stringifyNodesFields_cons] at hv
        rcases List.mem_append.mp hv with h1 | h2
        · have e : stringifyNodes (Json.num n) = [Json.num n] := rfl
          rw [e] at h1
          obtain rfl := List.mem_singleton.mp h1
          exact rfEmittedFirst_of_not_obj _ _ (fun gs h => Json.noConfusion h)
        · exact norm_fields_rf_first fs hgf v h2
      | bool b =>
        rw [normFields_cons_other k (Json.bool b) fs hk
            (fun gs h => Json.noConfusion h) (fun xs h => Json.noConfusion h),
          stringifyNodesFields_cons] at hv
        rcases List.mem_append.mp hv with h1 | h2
        · have e : stringifyNodes (Json.bool b) = [Json.bool b] := rfl
          rw [e] at h1
          obtain rfl := List.mem_singleton.mp h1
          exact rfEmittedFirst_of_not_obj _ _ (fun gs h => Json.noConfusion h)
        · exact norm_fields_rf_first fs hgf v h2
      | null =>
        rw [normFields_cons_other k Json.null fs hk
            (fun gs h => Json.noConfusion h) (fun xs h => Json.noConfusion h),
          stringifyNodesFields_cons] at hv
        rcases List.mem_append.mp hv with h1 | h2
        · have e : stringifyNodes Json.null = [Json.null] := rfl
          rw [e] at h1
          obtain rfl := List.mem_singleton.mp h1
          exact rfEmittedFirst_of_not_obj _ _ (fun gs h => Json.noConfusion h)
        · exact norm_fields_rf_first fs hgf v h2
termination_by structural fs _ _ _ => fs

theorem norm_elems_rf_first : ∀ (xs : List Json), goodElems xs = true →
    ∀ v ∈ stringifyNodesList (normList xs), RfEmittedFirst jsonStringify v
  | [], _, v, hv => by
    have e : stringifyNodesList (normList []) = [] := rfl
    rw [e] at hv
    cases hv
  | x :: xs, hg, v, hv => by
    obtain ⟨hax, hgx, hgxs⟩ := goodElems_cons x xs hg
    have e : normList (x :: xs) =
        normalizeRasterFunctionOrder x :: normList xs := rfl
    rw [e, stringifyNodesList_cons] at hv
    rcases List.mem_append.mp hv with h1 | h2
    · exact norm_stringify_rf_first x hgx hax v h1
    · exact norm_elems_rf_first xs hgxs v h2
termination_by structural xs _ _ _ => xs

end

/-- C8 counterexample: on the input `{rasterFunction: {b:2, rasterFunction:
"Y"}}` the normalize-then-stringify strategy violates the rasterFunction-first
invariant — the normalizer copies the `rasterFunction` value without
recursing into it, so `JSON.stringify` emits the inner object with `b` first —
hence the two field-ordering strategies are not equivalent with respect to
the serializer contract on every JSON-compatible input. -/
theorem c8_counterexample :
    normalizeRasterFunctionOrder
        (Json.obj [("rasterFunction",
          Json.obj [("b", Json.num 2), ("rasterFunction", Json.str "Y")])]) =
      Json.obj [("rasterFunction",
        Json.obj [("b", Json.num 2), ("rasterFunction", Json.str "Y")])] ∧
    Json.obj [("b", Json.num 2), ("rasterFunction", Json.str "Y")] ∈
      stringifyNodes (normalizeRasterFunctionOrder
        (Json.obj [("rasterFunction",
          Json.obj [("b", Json.num 2), ("rasterFunction", Json.str "Y")])])) ∧
    jsonStringify
        (Json.obj [("b", Json.num 2), ("rasterFunction", Json.str "Y")]) =
      "\x7b\"b\":2,\"rasterFunction\":\"Y\"\x7d" ∧
    (lookupField [("b", Json.num 2), ("rasterFunction", Json.str "Y")]
        "rasterFunction").isSome = true ∧
    ¬ RfEmittedFirst jsonStringify
        (Json.obj [("b", Json.num 2), ("rasterFunction", Json.str "Y")]) := by
  refine ⟨rfl, ?_, rfl, rfl, ?_⟩
  · have e : stringifyNodes (normalizeRasterFunctionOrder
        (Json.obj [("rasterFunction",
          Json.obj [("b", Json.num 2), ("rasterFunction", Json.str "Y")])])) =
        [Json.obj [("rasterFunction",
           Json.obj [("b", Json.num 2), ("rasterFunction", Json.str "Y")])],
         Json.obj [("b", Json.num 2), ("rasterFunction", Json.str "Y")],
         Json.num 2, Json.str "Y"] := rfl
    rw [e]
    exact List.mem_cons_of_mem _ (List.mem_cons_self _ _)
  · intro h
    obtain ⟨rest, hrest⟩ := h
      [("b", Json.num 2), ("rasterFunction", Json.str "Y")] rfl rfl
    have hpref := strStartsWith_of_eq_append hrest
    exact absurd hpref (by decide)

/-- C8 amended: the two field-ordering strategies agree with the serializer
contract on the inputs the rendering-rule pipeline actually passes —
non-array roots in which every `rasterFunction` value is a scalar and no
array is nested directly inside another array: there both the hand-written
recursive encoder and normalize-then-standard-stringify emit every object
node that binds `rasterFunction` with that key first, at every nesting depth
(the hand-written encoder needs no such restriction; the normalizer does,
because it copies `rasterFunction` values unrecursed and returns arrays
passed to it directly unchanged). -/
theorem c8_amended (j : Json) (hg : goodJson j = true)
    (ha : isArrayVal j = false) :
    (∀ v ∈ serNodes j,
      RfEmittedFirst ExportImage.createOrderedRenderingRuleString v) ∧
    (∀ v ∈ stringifyNodes (normalizeRasterFunctionOrder j),
      RfEmittedFirst jsonStringify v) := by
  refine ⟨?_, norm_stringify_rf_first j hg ha⟩
  intro v hv gs hgs hrf
  subst hgs
  obtain ⟨w, hw⟩ := Option.isSome_iff_exists.mp hrf
  exact ExportImage.cors_obj_rf gs w hw

/-- Witness for C8 (amended) at the specification's worked example
`{a:1, rasterFunction:"X", b:{rasterFunction:"Y", c:2}}`. -/
theorem c8_witness :
    (∀ v ∈ serNodes
        (Json.obj [("a", Json.num 1), ("rasterFunction", Json.str "X"),
          ("b", Json.obj [("rasterFunction", Json.str "Y"),
            ("c", Json.num 2)])]),
      RfEmittedFirst ExportImage.createOrderedRenderingRuleString v) ∧
    (∀ v ∈ stringifyNodes (normalizeRasterFunctionOrder
        (Json.obj [("a", Json.num 1), ("rasterFunction", Json.str "X"),
          ("b", Json.obj [("rasterFunction", Json.str "Y"),
            ("c", Json.num 2)])])),
      RfEmittedFirst jsonStringify v) :=
  c8_amended
    (Json.obj [("a", Json.num 1), ("rasterFunction", Json.str "X"),
      ("b", Json.obj [("rasterFunction", Json.str "Y"), ("c", Json.num 2)])])
    (by decide) rfl
